import Mathlib

/-!
Verification of the Aeron driver shared-memory transport core against its
specification.  The C sources under `aeron-driver/src/main/c` are embedded
shallowly: structs become Lean structures, machine integers become `Int`
with explicit range predicates for the declared C widths, pointers become
`Nat` handles (with `0` standing for `NULL`), and stateful C functions
become pure state-passing functions.  Where only a declaration of a
function is present in the sources, the definition is modelled from the
specification and marked as such in its doc comment.
-/

namespace Aeron

/-- Range of a C `int32_t` value. -/
def int32Range (x : Int) : Prop := -(2 ^ 31) ≤ x ∧ x < 2 ^ 31

/-- Range of a C `int64_t` value. -/
def int64Range (x : Int) : Prop := -(2 ^ 63) ≤ x ∧ x < 2 ^ 63

instance (x : Int) : Decidable (int32Range x) := by
  unfold int32Range; infer_instance

instance (x : Int) : Decidable (int64Range x) := by
  unfold int64Range; infer_instance

/-- Embedding of `aeron_driver_managed_resource_t` from
`aeron_driver_common.h`: `int64_t registration_id`,
`int64_t time_of_last_status_change`, `int32_t refcnt`. -/
structure aeron_driver_managed_resource_t where
  registration_id : Int
  time_of_last_status_change : Int
  refcnt : Int
deriving DecidableEq, Repr

/-- Embedding of `aeron_position_t` from `aeron_driver_common.h`.
The C field `int64_t *value_addr` (a borrowed pointer into the counter
store) is modelled as the `Nat` address of the counter slot it refers to;
the C field `counter_id` is declared `int64_t` in the source header. -/
structure aeron_position_t where
  value_addr : Nat
  counter_id : Int
deriving DecidableEq, Repr

/-- Well-formedness of a stored `aeron_position_t` value: each field holds a
value representable in its declared C type; `counter_id` is declared
`int64_t` in `aeron_driver_common.h`. -/
def aeron_position_wf (p : aeron_position_t) : Prop :=
  int64Range p.counter_id

instance (p : aeron_position_t) : Decidable (aeron_position_wf p) := by
  unfold aeron_position_wf; infer_instance

/-- Embedding of `aeron_subscribeable_t` from `aeron_driver_common.h`.
The C fields `aeron_position_t *array` and `size_t length` are fused into
the list `entries` (whose length is the struct's `length`); `capacity` is
the allocated capacity of the backing array. -/
structure aeron_subscribeable_t where
  entries : List aeron_position_t
  capacity : Nat
deriving DecidableEq, Repr

/-- Embedding of the receiver agent state `aeron_driver_receiver_t`.  Its
declaring header `aeron_driver_receiver.h` is not among the sources; the
shown code in `aeron_driver_receiver.c` touches only the `context` field
(a pointer, modelled as a `Nat` with `0` for `NULL`), so every remaining
field is abstracted into `rest`. -/
structure aeron_driver_receiver_t where
  context : Nat
  rest : Nat
deriving DecidableEq, Repr

/-- Embedding of `aeron_driver_receiver_init` from
`aeron_driver_receiver.c`: stores the supplied context pointer into the
receiver and returns `0`.  The C function mutates `receiver` in place and
returns an `int`; here it returns the updated receiver paired with the
return value. -/
def aeron_driver_receiver_init (receiver : aeron_driver_receiver_t) (context : Nat) :
    aeron_driver_receiver_t × Int :=
  ({ receiver with context := context }, 0)

/-- Embedding of `aeron_driver_receiver_do_work` from
`aeron_driver_receiver.c`: ignores `clientd` and returns `0`. -/
def aeron_driver_receiver_do_work (clientd : Nat) : Int := 0

/-- Embedding of `aeron_driver_receiver_on_close` from
`aeron_driver_receiver.c`: the body is empty, so the agent state is
returned unchanged.  The C parameter `void *clientd` is the receiver
state. -/
def aeron_driver_receiver_on_close (clientd : aeron_driver_receiver_t) :
    aeron_driver_receiver_t :=
  clientd

/-- Index of the first element of a list satisfying a Boolean predicate,
used to model the linear free-slot scan of the counter allocator and the
lookup step of `remove(counter_id)` on a subscribeable. -/
def findFirstIdx (p : α → Bool) : List α → Option Nat
  | [] => none
  | a :: l => if p a then some 0 else (findFirstIdx p l).map (fun n => n + 1)

/-- Modelled from the spec: the counter store / allocator
(`aeron_counters_manager_t`, declared in the absent header
`concurrent/aeron_counters_manager.h`) is a fixed-slot array managed by a
free pool.  Only slot occupancy is load-bearing for the claims; a slot's
64-bit value and diagnostic label are not modelled.  `used.length` is the
store's fixed capacity. -/
structure aeron_counters_manager_t where
  used : List Bool
deriving DecidableEq, Repr

/-- Modelled from the spec: `allocate(...) -> counter_id | EXHAUSTED`
(§4.1).  Scans the slot array for a free slot; on success returns its id
and marks it used, otherwise returns `none` (EXHAUSTED) and leaves the
store unchanged.  The allocation is recoverable: no failure path aborts. -/
def aeron_counters_manager_allocate (cm : aeron_counters_manager_t) :
    Option Nat × aeron_counters_manager_t :=
  match findFirstIdx (fun b => !b) cm.used with
  | some i => (some i, ⟨cm.used.set i true⟩)
  | none => (none, cm)

/-- Modelled from the spec: `free(counter_id)` returns a slot to the free
pool (§4.1). -/
def aeron_counters_manager_free (cm : aeron_counters_manager_t) (counter_id : Nat) :
    aeron_counters_manager_t :=
  ⟨cm.used.set counter_id false⟩

/-- Modelled from the spec: `aeron_stream_position_counter_allocate`
(declared in `aeron_position.h`, body absent) returns an `int32_t`
counter id on success; exhaustion is reported by the C error convention
of a negative return value.  The diagnostic identity arguments build the
slot label and do not affect allocation. -/
def aeron_stream_position_counter_allocate (cm : aeron_counters_manager_t)
    (name : String) (type_id : Int) (registration_id : Int)
    (session_id stream_id : Int) (channel suffix : String) :
    Int × aeron_counters_manager_t :=
  match aeron_counters_manager_allocate cm with
  | (some i, cm2) => ((i : Int), cm2)
  | (none, cm2) => (-1, cm2)

theorem findFirstIdx_eq_none_iff (p : α → Bool) (l : List α) :
    findFirstIdx p l = none ↔ ∀ x ∈ l, p x = false := by
  induction l with
  | nil => simp [findFirstIdx]
  | cons a l ih =>
    rw [List.forall_mem_cons]
    by_cases hpa : p a
    · simp [findFirstIdx, hpa]
    · have hpa' : p a = false := by simpa using hpa
      simp [findFirstIdx, hpa', ih]

theorem findFirstIdx_lt_length (p : α → Bool) (l : List α) (i : Nat)
    (h : findFirstIdx p l = some i) : i < l.length := by
  induction l generalizing i with
  | nil => simp [findFirstIdx] at h
  | cons a l ih =>
    by_cases hpa : p a
    · simp [findFirstIdx, hpa] at h
      simp only [List.length_cons]
      omega
    · simp [findFirstIdx, hpa] at h
      obtain ⟨j, hj, rfl⟩ := h
      have := ih j hj
      simp only [List.length_cons]
      omega

theorem findFirstIdx_not_set (l : List Bool) (i : Nat)
    (h : findFirstIdx (fun b => !b) l = some i) : l.set i false = l := by
  induction l generalizing i with
  | nil => simp [findFirstIdx] at h
  | cons a l ih =>
    by_cases ha : a
    · subst ha
      simp [findFirstIdx] at h
      obtain ⟨j, hj, rfl⟩ := h
      simp [List.set, ih j hj]
    · have ha' : a = false := by simpa using ha
      subst ha'
      simp [findFirstIdx] at h
      subst h
      simp [List.set]

/-- Allocation followed by freeing the returned slot restores the counter
store exactly: the scan only ever returns a slot that was free. -/
theorem alloc_free_roundtrip (cm cm2 : aeron_counters_manager_t) (cid : Nat)
    (h : aeron_counters_manager_allocate cm = (some cid, cm2)) :
    aeron_counters_manager_free cm2 cid = cm := by
  unfold aeron_counters_manager_allocate at h
  rcases hfind : findFirstIdx (fun b => !b) cm.used with _ | i
  · simp [hfind] at h
  · simp only [hfind] at h
    obtain ⟨hcid, hcm2⟩ := Prod.mk.injEq .. ▸ h
    obtain rfl : i = cid := by simpa using hcid
    subst hcm2
    unfold aeron_counters_manager_free
    simp [List.set_set, findFirstIdx_not_set cm.used i hfind]

/-- C5: `allocate()` returns EXHAUSTED exactly when no free slot remains,
and on a store of capacity 4: four consecutive allocations succeed (slots
0..3), the fifth returns EXHAUSTED, and after freeing one slot the next
allocation succeeds again with that slot. -/
theorem c5_allocate_exhausted :
    (∀ cm : aeron_counters_manager_t,
        (aeron_counters_manager_allocate cm).1 = none ↔ ∀ b ∈ cm.used, b = true) ∧
    (aeron_counters_manager_allocate ⟨[false, false, false, false]⟩).1 = some 0 ∧
    (aeron_counters_manager_allocate ⟨[true, false, false, false]⟩).1 = some 1 ∧
    (aeron_counters_manager_allocate ⟨[true, true, false, false]⟩).1 = some 2 ∧
    (aeron_counters_manager_allocate ⟨[true, true, true, false]⟩).1 = some 3 ∧
    (aeron_counters_manager_allocate ⟨[true, true, true, true]⟩).1 = none ∧
    (aeron_counters_manager_allocate
        (aeron_counters_manager_free ⟨[true, true, true, true]⟩ 2)).1 = some 2 ∧
    (aeron_counters_manager_allocate ⟨[false, false, false, false]⟩).2 =
      ⟨[true, false, false, false]⟩ ∧
    (aeron_counters_manager_allocate ⟨[true, false, false, false]⟩).2 =
      ⟨[true, true, false, false]⟩ ∧
    (aeron_counters_manager_allocate ⟨[true, true, false, false]⟩).2 =
      ⟨[true, true, true, false]⟩ ∧
    (aeron_counters_manager_allocate ⟨[true, true, true, false]⟩).2 =
      ⟨[true, true, true, true]⟩ ∧
    (aeron_counters_manager_allocate ⟨[true, true, true, true]⟩).2 =
      ⟨[true, true, true, true]⟩ := by
  refine ⟨fun cm => ?_, ?_⟩
  · unfold aeron_counters_manager_allocate
    rcases hfind : findFirstIdx (fun b => !b) cm.used with _ | i
    · rw [findFirstIdx_eq_none_iff] at hfind
      simpa using hfind
    · simp only
      constructor
      · intro h; simp at h
      · intro hall
        have : findFirstIdx (fun b => !b) cm.used = none := by
          rw [findFirstIdx_eq_none_iff]
          intro x hx; simp [hall x hx]
        rw [this] at hfind; cases hfind
  · refine ⟨?_, ?_, ?_, ?_, ?_, ?_, ?_, ?_, ?_, ?_, ?_⟩ <;> decide

/-- C7 counterexample: the claim that every `counter_id` stored in an
`aeron_position_t` fits in 32 bits is false for the struct declared in
`aeron_driver_common.h`, whose `counter_id` field is `int64_t`: the
position `{value_addr = 0, counter_id = 2^31}` is representable in the
declared field types yet its `counter_id` lies outside the `int32_t`
range. -/
theorem c7_counter_id_not_int32 :
    ¬ (∀ p : aeron_position_t, aeron_position_wf p → int32Range p.counter_id) := by
  intro h
  have := h ⟨0, 2 ^ 31⟩ (by decide)
  exact absurd this (by decide)

/-- C7 amended: the `counter_id` field of `aeron_position_t` is a 64-bit
signed integer (`int64_t` in `aeron_driver_common.h`), so a stored
`counter_id` need not fit in 32 bits; the counter ids actually produced
by `aeron_stream_position_counter_allocate` (whose C return type is
`int32_t`) do fit in 32 bits whenever the store capacity does. -/
theorem c7_counter_id_int64 (cm : aeron_counters_manager_t)
    (hcap : cm.used.length ≤ 2 ^ 31) :
    (∃ p : aeron_position_t, aeron_position_wf p ∧ ¬ int32Range p.counter_id) ∧
    int32Range
      (aeron_stream_position_counter_allocate cm "pub-lmt" 1 0 0 0 "aeron:ipc" "").1 := by
  refine ⟨⟨⟨0, 2 ^ 31⟩, by decide, by decide⟩, ?_⟩
  unfold aeron_stream_position_counter_allocate
  rcases halloc : aeron_counters_manager_allocate cm with ⟨_ | i, cm2⟩
  · simp only
    constructor <;> decide
  · simp only
    have hi : i < cm.used.length := by
      unfold aeron_counters_manager_allocate at halloc
      rcases hfind : findFirstIdx (fun b => !b) cm.used with _ | j
      · simp [hfind] at halloc
      · simp only [hfind] at halloc
        obtain ⟨h1, _⟩ := Prod.mk.injEq .. ▸ halloc
        obtain rfl : j = i := by simpa using h1
        exact findFirstIdx_lt_length _ _ _ hfind
    constructor
    · have : (0 : Int) ≤ (i : Int) := Int.natCast_nonneg i
      omega
    · have h1 : (i : Int) < (cm.used.length : Int) := by exact_mod_cast hi
      have h2 : (cm.used.length : Int) ≤ 2 ^ 31 := by exact_mod_cast hcap
      omega

/-- C7 amended witness at a concrete store of capacity 4. -/
theorem c7_counter_id_int64_witness :
    (∃ p : aeron_position_t, aeron_position_wf p ∧ ¬ int32Range p.counter_id) ∧
    int32Range
      (aeron_stream_position_counter_allocate ⟨[false, false, false, false]⟩
        "pub-lmt" 1 0 0 0 "aeron:ipc" "").1 :=
  c7_counter_id_int64 ⟨[false, false, false, false]⟩ (by decide)

/-- Modelled from the spec: `min_position()` of a subscribeable (§4.4)
scans all entries and returns the minimum consumer position, or the
producer's current position if the subscribeable is empty.  `read` is the
snapshot of the counter store mapping a position's `value_addr` to the
64-bit counter value it points at. -/
def aeron_driver_subscribeable_min_position (read : Nat → Int)
    (s : aeron_subscribeable_t) (producer_position : Int) : Int :=
  match s.entries with
  | [] => producer_position
  | p :: rest => (rest.map (fun q => read q.value_addr)).foldl min (read p.value_addr)

/-- Modelled from the spec: `recompute_limit()` (§4.4) computes
`limit = min(min_position() + window_size, producer_position)`, the value
written into the publisher-limit counter each Conductor duty cycle. -/
def aeron_driver_publication_recompute_limit (read : Nat → Int)
    (s : aeron_subscribeable_t) (window_size producer_position : Int) : Int :=
  min (aeron_driver_subscribeable_min_position read s producer_position + window_size)
    producer_position

theorem foldl_min_le_init (l : List Int) (a : Int) : l.foldl min a ≤ a := by
  induction l generalizing a with
  | nil => exact le_refl a
  | cons b t ih => exact le_trans (ih (min a b)) (min_le_left a b)

theorem foldl_min_le_mem (l : List Int) (a x : Int) (hx : x ∈ l) :
    l.foldl min a ≤ x := by
  induction l generalizing a with
  | nil => cases hx
  | cons b t ih =>
    rcases List.mem_cons.mp hx with rfl | hx'
    · exact le_trans (foldl_min_le_init t (min a x)) (min_le_right a x)
    · exact ih (min a b) hx'

theorem foldl_min_eq_init_or_mem (l : List Int) (a : Int) :
    l.foldl min a = a ∨ l.foldl min a ∈ l := by
  induction l generalizing a with
  | nil => exact Or.inl rfl
  | cons b t ih =>
    rcases ih (min a b) with h | h
    · rcases min_choice a b with hm | hm
      · exact Or.inl (by rw [List.foldl_cons, h, hm])
      · exact Or.inr (by rw [List.foldl_cons, h, hm]; exact List.mem_cons_self b t)
    · exact Or.inr (List.mem_cons_of_mem b h)

theorem min_position_nil (read : Nat → Int) (s : aeron_subscribeable_t) (P : Int)
    (h : s.entries = []) :
    aeron_driver_subscribeable_min_position read s P = P := by
  simp only [aeron_driver_subscribeable_min_position, h]

theorem min_position_le (read : Nat → Int) (s : aeron_subscribeable_t) (P : Int)
    (q : aeron_position_t) (hq : q ∈ s.entries) :
    aeron_driver_subscribeable_min_position read s P ≤ read q.value_addr := by
  rcases hs : s.entries with _ | ⟨p0, rest⟩
  · rw [hs] at hq; cases hq
  · rw [hs] at hq
    simp only [aeron_driver_subscribeable_min_position, hs]
    rcases List.mem_cons.mp hq with rfl | hq'
    · exact foldl_min_le_init _ _
    · exact foldl_min_le_mem _ _ _ (List.mem_map_of_mem _ hq')

theorem min_position_attained (read : Nat → Int) (s : aeron_subscribeable_t) (P : Int)
    (hne : s.entries ≠ []) :
    ∃ p, p ∈ s.entries ∧
      read p.value_addr = aeron_driver_subscribeable_min_position read s P := by
  rcases hs : s.entries with _ | ⟨p0, rest⟩
  · exact absurd hs hne
  · simp only [aeron_driver_subscribeable_min_position, hs]
    rcases foldl_min_eq_init_or_mem (rest.map fun q => read q.value_addr)
        (read p0.value_addr) with h | h
    · exact ⟨p0, List.mem_cons_self p0 rest, h.symm⟩
    · obtain ⟨q, hq, hqe⟩ := List.mem_map.mp h
      exact ⟨q, List.mem_cons_of_mem p0 hq, hqe⟩

/-- C1: for every counter-store snapshot, every subscribeable and every
producer position `P`, `recompute_limit` produces
`min(min(p_1..p_n) + window_size, P)`: the limit never exceeds `P`, never
exceeds any consumer position plus the window, and equals
`min(m + window_size, P)` for a minimal attached consumer position `m`;
when the subscribeable is empty, `min_position()` returns `P` and the
limit is `P` itself (unconstrained). -/
theorem c1_publisher_limit (read : Nat → Int) (s : aeron_subscribeable_t)
    (window_size producer_position : Int) (hw : 0 ≤ window_size) :
    (s.entries = [] →
      aeron_driver_subscribeable_min_position read s producer_position =
        producer_position ∧
      aeron_driver_publication_recompute_limit read s window_size producer_position =
        producer_position) ∧
    aeron_driver_publication_recompute_limit read s window_size producer_position ≤
      producer_position ∧
    (∀ p ∈ s.entries,
      aeron_driver_publication_recompute_limit read s window_size producer_position ≤
        read p.value_addr + window_size) ∧
    (s.entries ≠ [] →
      ∃ p ∈ s.entries,
        (∀ q ∈ s.entries, read p.value_addr ≤ read q.value_addr) ∧
        aeron_driver_publication_recompute_limit read s window_size producer_position =
          min (read p.value_addr + window_size) producer_position) := by
  refine ⟨?_, ?_, ?_, ?_⟩
  · intro h
    have h1 := min_position_nil read s producer_position h
    refine ⟨h1, ?_⟩
    unfold aeron_driver_publication_recompute_limit
    rw [h1]
    exact min_eq_right (le_add_of_nonneg_right hw)
  · exact min_le_right _ _
  · intro p hp
    have hle := min_position_le read s producer_position p hp
    exact le_trans (min_le_left _ _) (add_le_add_right hle _)
  · intro hne
    obtain ⟨p, hp, hpe⟩ := min_position_attained read s producer_position hne
    refine ⟨p, hp, fun q hq => ?_, ?_⟩
    · rw [hpe]
      exact min_position_le read s producer_position q hq
    · unfold aeron_driver_publication_recompute_limit
      rw [hpe]

/-- C1 witness: two consumers at positions 100 and 40, window 10,
producer at 200; the recomputed limit is bounded by the producer
position. -/
theorem c1_publisher_limit_witness :
    (0 : Int) ≤ 10 ∧
    aeron_driver_publication_recompute_limit
      (fun a => if a = 0 then 100 else 40) ⟨[⟨0, 10⟩, ⟨1, 11⟩], 2⟩ 10 200 ≤ 200 :=
  ⟨by decide,
    (c1_publisher_limit (fun a => if a = 0 then 100 else 40)
      ⟨[⟨0, 10⟩, ⟨1, 11⟩], 2⟩ 10 200 (by decide)).2.1⟩

/-- Modelled from the spec: `add(position)` (§4.4) appends an entry to
the subscribeable, doubling the backing capacity when the array is full
(amortized-doubling growth); a zero capacity grows to one slot. -/
def aeron_driver_subscribeable_add (s : aeron_subscribeable_t) (p : aeron_position_t) :
    aeron_subscribeable_t :=
  if s.entries.length < s.capacity then ⟨s.entries ++ [p], s.capacity⟩
  else ⟨s.entries ++ [p], max 1 (2 * s.capacity)⟩

/-- Modelled from the spec: `remove(counter_id)` (§4.4) locates the entry
with the given counter id and removes it by moving the last entry into
its slot and dropping the last slot (swap-with-last); a missing id leaves
the subscribeable unchanged. -/
def aeron_driver_subscribeable_remove (s : aeron_subscribeable_t) (counter_id : Int) :
    aeron_subscribeable_t :=
  match findFirstIdx (fun p => p.counter_id == counter_id) s.entries with
  | some i => ⟨(s.entries.set i (s.entries.getLastD ⟨0, 0⟩)).dropLast, s.capacity⟩
  | none => s

/-- One Conductor mutation of a subscribeable. -/
inductive SubscribeableOp where
  | add (p : aeron_position_t)
  | remove (counter_id : Int)

def aeron_driver_subscribeable_apply (s : aeron_subscribeable_t) :
    SubscribeableOp → aeron_subscribeable_t
  | .add p => aeron_driver_subscribeable_add s p
  | .remove cid => aeron_driver_subscribeable_remove s cid

/-- A whole sequence of Conductor mutations applied in order. -/
def aeron_driver_subscribeable_run (s : aeron_subscribeable_t)
    (ops : List SubscribeableOp) : aeron_subscribeable_t :=
  ops.foldl aeron_driver_subscribeable_apply s

theorem subscribeable_apply_le (s : aeron_subscribeable_t) (op : SubscribeableOp)
    (h : s.entries.length ≤ s.capacity) :
    (aeron_driver_subscribeable_apply s op).entries.length ≤
      (aeron_driver_subscribeable_apply s op).capacity := by
  cases op with
  | add p =>
    unfold aeron_driver_subscribeable_apply aeron_driver_subscribeable_add
    by_cases hlt : s.entries.length < s.capacity
    · simp only [hlt, if_pos, List.length_append, List.length_cons, List.length_nil]
      omega
    · simp only [hlt, if_neg, List.length_append, List.length_cons, List.length_nil,
        Bool.false_eq_true, not_false_eq_true]
      have hle : s.entries.length = s.capacity := le_antisymm h (Nat.le_of_not_lt hlt)
      rcases Nat.eq_zero_or_pos s.capacity with hc | hc
      · rw [hle, hc]
        simpa using Nat.le_max_left 1 0
      · have h2 : s.entries.length + 0 + 1 ≤ 2 * s.capacity := by omega
        exact le_trans h2 (Nat.le_max_right 1 _)
  | remove cid =>
    unfold aeron_driver_subscribeable_apply aeron_driver_subscribeable_remove
    rcases hfind : findFirstIdx (fun p => p.counter_id == cid) s.entries with _ | i
    · simp only [hfind]
      exact h
    · simp only [hfind, List.length_dropLast, List.length_set]
      omega

/-- C4: starting from any subscribeable satisfying
`length <= capacity`, every sequence of Conductor operations (`add` with
amortized-doubling growth, `remove` by swap-with-last) preserves
`length <= capacity`. -/
theorem c4_length_le_capacity (s : aeron_subscribeable_t) (ops : List SubscribeableOp)
    (h : s.entries.length ≤ s.capacity) :
    (aeron_driver_subscribeable_run s ops).entries.length ≤
      (aeron_driver_subscribeable_run s ops).capacity := by
  induction ops generalizing s with
  | nil => simpa [aeron_driver_subscribeable_run] using h
  | cons op ops ih =>
    have h1 := subscribeable_apply_le s op h
    simpa [aeron_driver_subscribeable_run, List.foldl_cons] using
      ih (aeron_driver_subscribeable_apply s op) h1

/-- C4 witness: from the empty subscribeable, two adds followed by one
remove keep `length <= capacity`. -/
theorem c4_length_le_capacity_witness :
    (aeron_driver_subscribeable_run ⟨[], 0⟩
        [SubscribeableOp.add ⟨0, 1⟩, SubscribeableOp.add ⟨1, 2⟩,
          SubscribeableOp.remove 1]).entries.length ≤
      (aeron_driver_subscribeable_run ⟨[], 0⟩
        [SubscribeableOp.add ⟨0, 1⟩, SubscribeableOp.add ⟨1, 2⟩,
          SubscribeableOp.remove 1]).capacity :=
  c4_length_le_capacity ⟨[], 0⟩
    [SubscribeableOp.add ⟨0, 1⟩, SubscribeableOp.add ⟨1, 2⟩, SubscribeableOp.remove 1]
    (by decide)

/-- States of the Publication lifecycle state machine of §4.3.  Creation
(the INITIALIZING step) is modelled by `aeron_publication_lifecycle_create`,
which yields the post-initialization ACTIVE state with `refcnt = 1`. -/
inductive aeron_publication_state where
  | active
  | draining
  | closing
  | lingering
  | deleted
deriving DecidableEq, Repr

/-- Modelled from the spec: the conductor-owned lifecycle view of a
Publication — its managed-resource reference count together with the
§4.3 state.  The C bodies maintaining these fields are absent from the
sources; only `aeron_driver_managed_resource_t` is declared. -/
structure aeron_publication_lifecycle_t where
  refcnt : Int
  state : aeron_publication_state
deriving DecidableEq, Repr

/-- Modelled from the spec: a freshly created Publication has
`refcnt = 1` and is ACTIVE (§4.3 INITIALIZING completed). -/
def aeron_publication_lifecycle_create : aeron_publication_lifecycle_t :=
  ⟨1, aeron_publication_state.active⟩

/-- Modelled from the spec: an additional client registration increments
`refcnt` while the Publication is ACTIVE (§4.3); no other state accepts
registrations (no resurrection). -/
def aeron_publication_on_register (p : aeron_publication_lifecycle_t) :
    aeron_publication_lifecycle_t :=
  if p.state = aeron_publication_state.active then
    { p with refcnt := p.refcnt + 1 }
  else p

/-- Modelled from the spec: a registration release decrements `refcnt`
while ACTIVE; the decrement reaching 0 moves the Publication to DRAINING
(§4.3).  Outside ACTIVE a release does nothing. -/
def aeron_publication_on_release (p : aeron_publication_lifecycle_t) :
    aeron_publication_lifecycle_t :=
  if p.state = aeron_publication_state.active then
    { refcnt := p.refcnt - 1,
      state :=
        if p.refcnt - 1 = 0 then aeron_publication_state.draining
        else aeron_publication_state.active }
  else p

/-- Modelled from the spec: the Conductor's duty-cycle progression
DRAINING → CLOSING → LINGERING → DELETED (§4.3); ACTIVE and DELETED are
left unchanged by this step, and `refcnt` is never touched. -/
def aeron_publication_advance (p : aeron_publication_lifecycle_t) :
    aeron_publication_lifecycle_t :=
  { p with
    state :=
      match p.state with
      | aeron_publication_state.draining => aeron_publication_state.closing
      | aeron_publication_state.closing => aeron_publication_state.lingering
      | aeron_publication_state.lingering => aeron_publication_state.deleted
      | s => s }

/-- States reachable from Publication creation by Conductor operations. -/
inductive aeron_publication_reachable : aeron_publication_lifecycle_t → Prop where
  | created : aeron_publication_reachable aeron_publication_lifecycle_create
  | registered {p} : aeron_publication_reachable p →
      aeron_publication_reachable (aeron_publication_on_register p)
  | released {p} : aeron_publication_reachable p →
      aeron_publication_reachable (aeron_publication_on_release p)
  | advanced {p} : aeron_publication_reachable p →
      aeron_publication_reachable (aeron_publication_advance p)

theorem publication_refcnt_inv (p : aeron_publication_lifecycle_t)
    (h : aeron_publication_reachable p) :
    (p.state = aeron_publication_state.active → 1 ≤ p.refcnt) ∧
    (p.state ≠ aeron_publication_state.active → p.refcnt = 0) := by
  induction h with
  | created => exact ⟨fun _ => le_refl 1, fun hne => absurd rfl hne⟩
  | @registered p hp ih =>
    unfold aeron_publication_on_register
    by_cases hs : p.state = aeron_publication_state.active
    · rw [if_pos hs]
      refine ⟨fun _ => ?_, fun hne => absurd hs hne⟩
      show 1 ≤ p.refcnt + 1
      have h1 := ih.1 hs
      omega
    · rw [if_neg hs]
      exact ih
  | @released p hp ih =>
    unfold aeron_publication_on_release
    by_cases hs : p.state = aeron_publication_state.active
    · rw [if_pos hs]
      have h1 := ih.1 hs
      by_cases hz : p.refcnt - 1 = 0
      · rw [if_pos hz]
        exact ⟨fun hc => (nomatch hc), fun _ => hz⟩
      · rw [if_neg hz]
        refine ⟨fun _ => ?_, fun hne => absurd rfl hne⟩
        show 1 ≤ p.refcnt - 1
        omega
    · rw [if_neg hs]
      exact ih
  | @advanced p hp ih =>
    unfold aeron_publication_advance
    cases hst : p.state with
    | active =>
      exact ⟨fun _ => ih.1 hst, fun hne => absurd rfl hne⟩
    | draining =>
      exact ⟨fun hc => (nomatch hc), fun _ => ih.2 (by rw [hst]; decide)⟩
    | closing =>
      exact ⟨fun hc => (nomatch hc), fun _ => ih.2 (by rw [hst]; decide)⟩
    | lingering =>
      exact ⟨fun hc => (nomatch hc), fun _ => ih.2 (by rw [hst]; decide)⟩
    | deleted =>
      exact ⟨fun hc => (nomatch hc), fun _ => ih.2 (by rw [hst]; decide)⟩

/-- C3: in every reachable state of a Publication's managed resource,
`refcnt >= 0`; once the Publication has left ACTIVE (which happens only
through the single decrement that reaches 0), `refcnt` is exactly 0 and a
further release is a no-op, so no later operation can take the count
below 0. -/
theorem c3_refcnt_nonneg (p : aeron_publication_lifecycle_t)
    (h : aeron_publication_reachable p) :
    0 ≤ p.refcnt ∧
    (p.state ≠ aeron_publication_state.active →
      p.refcnt = 0 ∧ aeron_publication_on_release p = p) := by
  have hinv := publication_refcnt_inv p h
  refine ⟨?_, fun hne => ⟨hinv.2 hne, ?_⟩⟩
  · by_cases hs : p.state = aeron_publication_state.active
    · exact le_trans zero_le_one (hinv.1 hs)
    · rw [hinv.2 hs]
  · unfold aeron_publication_on_release
    rw [if_neg hne]

/-- C3 witness: creating a Publication and releasing its single
registration reaches a state with `refcnt = 0` on which the invariant
holds. -/
theorem c3_refcnt_nonneg_witness :
    0 ≤ (aeron_publication_on_release aeron_publication_lifecycle_create).refcnt ∧
    ((aeron_publication_on_release aeron_publication_lifecycle_create).state ≠
        aeron_publication_state.active →
      (aeron_publication_on_release aeron_publication_lifecycle_create).refcnt = 0 ∧
      aeron_publication_on_release
          (aeron_publication_on_release aeron_publication_lifecycle_create) =
        aeron_publication_on_release aeron_publication_lifecycle_create) :=
  c3_refcnt_nonneg _
    (aeron_publication_reachable.released aeron_publication_reachable.created)

/-- Modelled from the spec: the metadata state of a Term Log Buffer
(§4.2): `term_count` terms of `term_length` bytes each, the per-term
tail offsets, the active-term identifier, and the producer's absolute
stream position (total bytes appended since creation), which locates the
stream interval each term still holds. -/
structure aeron_term_log_t where
  term_length : Nat
  term_count : Nat
  active_term_id : Nat
  tails : List Nat
  producer_position : Nat
deriving DecidableEq, Repr

/-- Modelled from the spec: the stream position at which the old
contents of the rotation target term end.  When the active term fills at
producer position `P`, the next term still holds the data written
`term_count - 1` terms earlier, ending at
`P - (term_count - 1) * term_length`; a reader whose position is below
this value still has unread data inside the target term. -/
def aeron_term_rotation_threshold (log : aeron_term_log_t) : Int :=
  (log.producer_position : Int) - (((log.term_count - 1) * log.term_length : Nat) : Int)

/-- Modelled from the spec: the writer's on-fill rotation step (§4.2).
When the active term's tail has reached `term_length` and the minimum
reader position confirms that no reader still has unread data inside the
next term (lapping safety), the active-term identifier advances to
`(active + 1) mod term_count` and that term's tail is reset to 0;
otherwise — tail not yet full, or a reader still inside the target
term — the state is left unchanged: the rotation is deferred, not
forced. -/
def aeron_term_rotate (log : aeron_term_log_t) (min_position : Int) :
    aeron_term_log_t :=
  if log.tails.getD log.active_term_id 0 = log.term_length then
    if aeron_term_rotation_threshold log ≤ min_position then
      { log with
        active_term_id := (log.active_term_id + 1) % log.term_count,
        tails := log.tails.set ((log.active_term_id + 1) % log.term_count) 0 }
    else log
  else log

/-- C2: when the active term's tail has reached `term_length`, the
rotation step advances the active-term identifier to
`(active_id + 1) mod term_count` and resets the vacated next term's tail
to 0 — but only when the minimum reader position shows no reader still
has unread data inside that term; a rotation attempted while a reader is
inside the target term leaves the state completely unchanged (deferred),
and no rotation happens before the tail reaches `term_length`. -/
theorem c2_rotation_lapping (log : aeron_term_log_t) (min_position : Int) :
    (log.tails.getD log.active_term_id 0 ≠ log.term_length →
      aeron_term_rotate log min_position = log) ∧
    (log.tails.getD log.active_term_id 0 = log.term_length →
      (min_position < aeron_term_rotation_threshold log →
        aeron_term_rotate log min_position = log) ∧
      (aeron_term_rotation_threshold log ≤ min_position →
        (aeron_term_rotate log min_position).active_term_id =
          (log.active_term_id + 1) % log.term_count ∧
        (aeron_term_rotate log min_position).tails =
          log.tails.set ((log.active_term_id + 1) % log.term_count) 0 ∧
        (aeron_term_rotate log min_position).producer_position =
          log.producer_position ∧
        (aeron_term_rotate log min_position).term_length = log.term_length ∧
        (aeron_term_rotate log min_position).term_count = log.term_count)) := by
  unfold aeron_term_rotate
  refine ⟨fun hne => ?_, fun hfull => ⟨fun hlt => ?_, fun hle => ?_⟩⟩
  · rw [if_neg hne]
  · rw [if_pos hfull, if_neg (not_le.mpr hlt)]
  · rw [if_pos hfull, if_pos hle]
    exact ⟨rfl, rfl, rfl, rfl, rfl⟩

/-- C2 witness on the spec's scenario (`term_length = 1024`,
`term_count = 3`, active term 2 full at producer position 3072): a
reader past position 1024 permits rotation to term 0 with its tail
reset, while a reader at position 512 still inside term 0 defers it. -/
theorem c2_rotation_lapping_witness :
    (aeron_term_rotate ⟨1024, 3, 2, [1024, 1024, 1024], 3072⟩ 2048).active_term_id =
      0 ∧
    (aeron_term_rotate ⟨1024, 3, 2, [1024, 1024, 1024], 3072⟩ 2048).tails =
      [0, 1024, 1024] ∧
    aeron_term_rotate ⟨1024, 3, 2, [1024, 1024, 1024], 3072⟩ 512 =
      ⟨1024, 3, 2, [1024, 1024, 1024], 3072⟩ :=
  ⟨((c2_rotation_lapping ⟨1024, 3, 2, [1024, 1024, 1024], 3072⟩ 2048).2
      (by decide)).2 (by decide) |>.1,
   ((c2_rotation_lapping ⟨1024, 3, 2, [1024, 1024, 1024], 3072⟩ 2048).2
      (by decide)).2 (by decide) |>.2.1,
   ((c2_rotation_lapping ⟨1024, 3, 2, [1024, 1024, 1024], 3072⟩ 512).2
      (by decide)).1 (by decide)⟩

/-- The error taxonomy of §7 relevant to Publication creation. -/
inductive AeronError where
  | InvalidArgument
  | ResourceExhaustion
  | IOFailure
deriving DecidableEq, Repr

/-- Embedding of `struct conductor_fields_stct` nested in
`aeron_ipc_publication_t` (`aeron_ipc_publication.h`). -/
structure conductor_fields_stct where
  managed_resource : aeron_driver_managed_resource_t
  subscribeable : aeron_subscribeable_t
deriving DecidableEq, Repr

/-- Embedding of `aeron_ipc_publication_t` from
`aeron_ipc_publication.h`.  The field `mapped_raw_log` (of type
`aeron_mapped_raw_log_t`, whose declaring header is absent) is
abstracted as the registration id of the mapping it denotes, and
`log_file_name` keeps its length alongside as in the source. -/
structure aeron_ipc_publication_t where
  conductor_fields : conductor_fields_stct
  mapped_raw_log : Int
  log_file_name : String
  session_id : Int
  stream_id : Int
  pub_lmt_counter_id : Int
  log_file_name_length : Nat
deriving DecidableEq, Repr

/-- Modelled from the spec: conductor-side driver state touched by
Publication creation — the counter store, the mapped raw logs (as
registration ids), and `io_ok`, abstracting whether the filesystem can
map a new log region (§4.2 `create -> log | IO_FAILURE`). -/
structure aeron_driver_state_t where
  counters : aeron_counters_manager_t
  mapped_logs : List Int
  io_ok : Bool
deriving DecidableEq, Repr

/-- Modelled from the spec: `aeron_ipc_publication_create` is declared
in `aeron_ipc_publication.h` with no body in the sources; this models
the INITIALIZING step of §4.3 it implements together with its conductor
caller: validate the term length (`InvalidArgument` when non-positive),
allocate the publisher-limit counter (`ResourceExhaustion` when the
store is full), map the log (`IOFailure` when the filesystem cannot),
and on a sub-step failure free every already allocated sub-resource and
report the error. -/
def aeron_ipc_publication_create (st : aeron_driver_state_t)
    (session_id stream_id registration_id : Int) (term_buffer_length : Nat) :
    Except AeronError aeron_ipc_publication_t × aeron_driver_state_t :=
  if term_buffer_length = 0 then (Except.error AeronError.InvalidArgument, st)
  else
    match aeron_counters_manager_allocate st.counters with
    | (none, _) => (Except.error AeronError.ResourceExhaustion, st)
    | (some cid, cm2) =>
      if st.io_ok then
        (Except.ok
          { conductor_fields :=
              { managed_resource :=
                  { registration_id := registration_id,
                    time_of_last_status_change := 0,
                    refcnt := 1 },
                subscribeable := { entries := [], capacity := 0 } },
            mapped_raw_log := registration_id,
            log_file_name := "",
            session_id := session_id,
            stream_id := stream_id,
            pub_lmt_counter_id := (cid : Int),
            log_file_name_length := 0 },
         { st with
            counters := cm2,
            mapped_logs := registration_id :: st.mapped_logs })
      else
        (Except.error AeronError.IOFailure,
         { st with counters := aeron_counters_manager_free cm2 cid })

/-- C6: Publication creation with `term_length = 0` returns
`InvalidArgument`, and every failing creation (`InvalidArgument`,
`ResourceExhaustion` or `IOFailure`) leaves the driver state exactly as
it was — the publisher-limit counter slot allocated on the way is freed
again and no log mapping remains, so creation is atomic on error. -/
theorem c6_create_rollback (st : aeron_driver_state_t)
    (session_id stream_id registration_id : Int) (term_buffer_length : Nat)
    (e : AeronError)
    (h : (aeron_ipc_publication_create st session_id stream_id registration_id
            term_buffer_length).1 = Except.error e) :
    (aeron_ipc_publication_create st session_id stream_id registration_id 0).1 =
      Except.error AeronError.InvalidArgument ∧
    (aeron_ipc_publication_create st session_id stream_id registration_id
        term_buffer_length).2 = st := by
  constructor
  · unfold aeron_ipc_publication_create
    rw [if_pos rfl]
  · unfold aeron_ipc_publication_create at h ⊢
    by_cases h0 : term_buffer_length = 0
    · rw [if_pos h0]
    · rw [if_neg h0] at h ⊢
      rcases halloc : aeron_counters_manager_allocate st.counters with ⟨_ | cid, cm2⟩
      · simp only [halloc]
      · simp only [halloc] at h ⊢
        by_cases hio : st.io_ok
        · rw [if_pos hio] at h
          exact (nomatch h)
        · rw [if_neg hio]
          show { st with counters := aeron_counters_manager_free cm2 cid } = st
          rw [alloc_free_roundtrip st.counters cm2 cid halloc]

/-- C6 witness: with one free counter slot and a failing filesystem,
creation with term length 4096 fails and leaves the concrete driver
state unchanged, and creation with term length 0 reports
`InvalidArgument`. -/
theorem c6_create_rollback_witness :
    (aeron_ipc_publication_create ⟨⟨[false]⟩, [], false⟩ 7 11 42 0).1 =
      Except.error AeronError.InvalidArgument ∧
    (aeron_ipc_publication_create ⟨⟨[false]⟩, [], false⟩ 7 11 42 4096).2 =
      ⟨⟨[false]⟩, [], false⟩ :=
  c6_create_rollback ⟨⟨[false]⟩, [], false⟩ 7 11 42 4096 AeronError.IOFailure rfl

/-- C8: one invocation of the Receiver's `do_work()` returns a
non-negative work count, for every input state. -/
theorem c8_do_work_nonneg (clientd : Nat) :
    0 ≤ aeron_driver_receiver_do_work clientd := by
  simp [aeron_driver_receiver_do_work]

/-- C9: the Receiver's `on_close()` is idempotent: calling it twice in a
row leaves the same state as calling it once. -/
theorem c9_on_close_idempotent (s : aeron_driver_receiver_t) :
    aeron_driver_receiver_on_close (aeron_driver_receiver_on_close s) =
      aeron_driver_receiver_on_close s := rfl

/-- C10: `aeron_driver_receiver_init` always succeeds: for every receiver
and every context argument, including the null context `0`, it stores the
supplied pointer in the receiver's `context` field, leaves the remaining
fields unchanged, and returns `0`. -/
theorem c10_receiver_init_frame (r : aeron_driver_receiver_t) (ctx : Nat) :
    (aeron_driver_receiver_init r ctx).1.context = ctx ∧
    (aeron_driver_receiver_init r ctx).1.rest = r.rest ∧
    (aeron_driver_receiver_init r 0).1.context = 0 ∧
    (aeron_driver_receiver_init r ctx).2 = 0 := by
  refine ⟨rfl, rfl, rfl, rfl⟩

end Aeron
